import Mathlib

/-!
Verification of the ttvy_core chat client (src/chat.rs, src/chat_controller.rs)
against its natural-language specification.

Rust strings are modelled as lists of characters (`RStr`).  A Rust function
that can panic is modelled with the `RRes` result type, whose `panicked`
constructor marks an `unwrap`/`expect` failure.  The controller, session and
proxy tasks are modelled as an explicit state machine (`SysState`, `step`)
driven by scheduler events (`Ev`).
-/

namespace Ttvy

/-- Rust `&str` / `String`, modelled as a list of characters. -/
abbrev RStr := List Char

/-- Result of running a piece of Rust code that may panic. -/
inductive RRes (α : Type) where
  | panicked : RRes α
  | ok : α → RRes α
deriving DecidableEq

/-- `ChatMessage` from src/chat.rs: author, optional display color, text. -/
structure ChatMessage where
  author : RStr
  color : Option RStr
  message : RStr
deriving DecidableEq

/-- Check whether `sep` is a prefix of `s` (Rust `str::starts_with`). -/
def leadsWith : RStr → RStr → Bool
  | [], _ => true
  | _ :: _, [] => false
  | c :: cs, x :: xs => c == x && leadsWith cs xs

/-- Rust `str::split_once(sep)`: split at the first occurrence of `sep`. -/
def splitOnceStr (sep : RStr) : RStr → Option (RStr × RStr)
  | [] => if leadsWith sep [] then some ([], []) else none
  | c :: rest =>
    if leadsWith sep (c :: rest) then some ([], (c :: rest).drop sep.length)
    else
      match splitOnceStr sep rest with
      | some (a, b) => some (c :: a, b)
      | none => none

/-- Rust `str::contains(sep)`: substring containment. -/
def containsSub (sep : RStr) : RStr → Bool
  | [] => leadsWith sep []
  | c :: rest => leadsWith sep (c :: rest) || containsSub sep rest

/-- Rust `str::strip_suffix(suf)`. -/
def stripSuffix (suf s : RStr) : Option RStr :=
  if s.length < suf.length then none
  else if s.drop (s.length - suf.length) = suf then some (s.take (s.length - suf.length))
  else none

/-- The last element of Rust `str::splitn(n+1, c)`: the remainder of `s`
after removing up to `n` leading `c`-delimited segments. -/
def splitnLast (c : Char) : Nat → RStr → RStr
  | 0, s => s
  | n + 1, s =>
    match splitOnceStr [c] s with
    | none => s
    | some (_, b) => splitnLast c n b

/-- Rust `str::split(c)`: all `c`-delimited segments. -/
def splitAll (c : Char) : RStr → List RStr
  | [] => [[]]
  | x :: rest =>
    if x = c then [] :: splitAll c rest
    else
      match splitAll c rest with
      | p :: ps => (x :: p) :: ps
      | [] => [[x]]

/-- Rust `str::get(1..)` on a string known at the byte level: defined iff the
string is non-empty and its first character occupies a single UTF-8 byte
(code point below 128), in which case it drops that character. -/
def rustGet1 : RStr → Option RStr
  | [] => none
  | c :: t => if c.toNat < 128 then some t else none

/-- The CRLF line terminator. -/
def crlf : RStr := ['\r', '\n']

/-- The `" :"` separator used by the tagged-line parser. -/
def spc : RStr := [' ', ':']

/-- `parse::format_user_message` (src/chat.rs:204-224), the untagged parser
`parse_plain`.  The leading `split_once("\r\n").unwrap()` panics when the
input has no CRLF; `author.get(1..).unwrap()` panics when the segment before
the first `'!'` is empty or starts with a multi-byte character. -/
def format_user_message (s : RStr) : RRes (Option ChatMessage) :=
  match splitOnceStr crlf s with
  | none => .panicked
  | some (body, _) =>
    let message := splitnLast ':' 2 body
    match splitOnceStr ['!'] body with
    | some (a, _) =>
      match rustGet1 a with
      | none => .panicked
      | some author => .ok (some ⟨author, none, message⟩)
    | none => .ok none

/-- `parse::parse_tags` (src/chat.rs:258-262): split on `';'`, keep the pairs
that contain `'='`, split each at its first `'='`. -/
def parse_tags (tags : RStr) : List (RStr × RStr) :=
  (splitAll ';' tags).filterMap (fun p => splitOnceStr ['='] p)

/-- Lookup in the `HashMap` built by `collect()` from `parse_tags`: on
duplicate keys the last insertion wins. -/
def lookupLast (ps : List (RStr × RStr)) (k : RStr) : Option RStr :=
  ps.foldl (fun acc p => if p.1 = k then some p.2 else acc) none

/-- `parse::format_user_message_with_tags` (src/chat.rs:226-256), the tagged
parser `parse_tagged`.  Panics only on input without CRLF. -/
def format_user_message_with_tags (s : RStr) : RRes (Option ChatMessage) :=
  match splitOnceStr crlf s with
  | none => .panicked
  | some (body, _) =>
    match splitOnceStr spc body with
    | none => .ok none
    | some (tags, tail) =>
      match splitOnceStr spc tail with
      | none => .ok none
      | some (_, message) =>
        let tm := parse_tags tags
        match lookupLast tm ("display-name".data) with
        | none => .ok none
        | some author => .ok (some ⟨author, lookupLast tm ("color".data), message⟩)

/-- The invisible repeat-message marker `" \u{E0000}"` appended/stripped by the
dedup workaround (src/chat.rs:150-154). -/
def marker : RStr := [' ', Char.ofNat 0xE0000]

/-- One application of the outgoing-line dedup workaround
(src/chat.rs:144-157): substitute the previous line for an empty line, then
toggle the trailing invisible marker on an exact repeat.  Returns the final
content transmitted (also the new `last_sent_message`); `none` models the
panic of `strip_suffix(" \u{E0000}").unwrap()` when the marker occurs in the
line but not as a suffix. -/
def dedupStep (last msg : RStr) : Option RStr :=
  let m := if msg = [] then last else msg
  if last = m then
    if containsSub marker m then
      match stripSuffix marker m with
      | some m2 => some m2
      | none => none
    else some (m ++ marker)
  else some m

/-- Run `dedupStep` over a sequence of submitted lines, starting from the
given `last_sent_message`.  Returns the list of transmitted contents and the
final `last_sent_message`; `none` if some step panicked. -/
def dedupRun (last : RStr) : List RStr → Option (List RStr × RStr)
  | [] => some ([], last)
  | m :: ms =>
    match dedupStep last m with
    | none => none
    | some m2 =>
      match dedupRun m2 ms with
      | none => none
      | some (ps, l) => some (m2 :: ps, l)

/-- The wire line `format!("PRIVMSG #{} :{}", channel, msg)` (src/chat.rs:159). -/
def privmsgLine (ch m : RStr) : RStr := "PRIVMSG #".data ++ ch ++ (' ' :: ':' :: m)

/-- `ConnectConfig` from src/chat_controller.rs. -/
structure ConnectConfig where
  channel : Option RStr
  oauth : Option RStr
  nick : Option RStr
deriving DecidableEq

/-- The handshake line `PASS oauth:<token>` (default token `"blah"`). -/
def passLine (oauth : Option RStr) : RStr := "PASS oauth:".data ++ oauth.getD "blah".data

/-- The handshake line `NICK <nick>` (default `"justinfan354678"`). -/
def nickLine (nick : Option RStr) : RStr :=
  "NICK ".data ++ nick.getD "justinfan354678".data ++ ['\n', '\r']

/-- The handshake line `JOIN #<channel>`. -/
def joinLine (ch : RStr) : RStr := "JOIN #".data ++ ch ++ ['\n', '\r']

/-- The capability request `CAP REQ :twitch.tv/tags`. -/
def capLine : RStr := "CAP REQ :twitch.tv/tags".data

/-- Phase of a `connect` task: performing the handshake, or inside the
`tokio::select!` service loop. -/
inductive SessPhase where
  | handshake
  | running
deriving DecidableEq

/-- Task-local state of one `connect` task (src/chat.rs:86-166). -/
structure SessState where
  cfg : ConnectConfig
  phase : SessPhase
  tagsAllowed : Bool
  lastSent : RStr
deriving DecidableEq

/-- Phase of the task spawned by `Controller::supervise`: about to begin a
loop iteration, or holding the `websocket_tx` mutex guard while awaiting the
nested `connect` task of generation `g` with proxy task `p`. -/
inductive LoopPhase where
  | startIter
  | waitSession (g p : Nat)
deriving DecidableEq

/-- State of one supervise-loop task. -/
structure LoopState where
  cfg : ConnectConfig
  phase : LoopPhase
deriving DecidableEq

/-- Global state: the `Controller`'s fields plus the tokio tasks and channels.
`slot` is the content of `websocket_tx` (the generation id of the sender it
holds); `handle` is `Controller::handle`; `mutexFree` tracks the `Mutex`
around the slot; `outQs g` / `inQs g` are the buffers of generation `g`'s
outgoing and incoming channels; `socks g` the lines written to generation
`g`'s websocket; `durable` the buffer of the durable proxy channel consumed
by `Chat::receive`. -/
structure SysState where
  nextId : Nat
  mutexFree : Bool
  slot : Option Nat
  handle : Option Nat
  loops : Nat → Option LoopState
  sessions : Nat → Option SessState
  proxies : Nat → Option Nat
  inQs : Nat → List ChatMessage
  outQs : Nat → List RStr
  socks : Nat → List RStr
  durable : List ChatMessage

/-- Point update of a function over `Nat` keys. -/
def upd {α : Type} (f : Nat → α) (k : Nat) (v : α) : Nat → α :=
  fun q => if q = k then v else f q

/-- Scheduler events: controller calls made by the host and single steps of
the spawned tasks. -/
inductive Ev where
  | ctrlJoin (cfg : ConnectConfig)
  | ctrlLeave
  | ctrlSend (m : RStr)
  | loopRun (l : Nat)
  | sessRun (g : Nat)
  | sessOut (g : Nat)
  | sessIn (g : Nat) (frame : RStr)
  | sessFail (g : Nat)
  | proxyRun (p : Nat)

/-- Effect of `JoinHandle::abort` on a supervise-loop task: the loop future
is dropped, which releases the mutex guard if the loop was holding one.  The
nested `connect` task and the proxy task are separate tokio tasks and are
not touched. -/
def abortLoopTask (s : SysState) (l : Nat) : SysState :=
  match s.loops l with
  | none => s
  | some ls =>
    let free := match ls.phase with
      | .waitSession _ _ => true
      | .startIter => s.mutexFree
    { s with loops := upd s.loops l none, mutexFree := free }

/-- `Controller::supervise` up to its `tokio::spawn`: spawn a fresh loop task
and record its handle (src/chat_controller.rs:93-122). -/
def superviseSpawn (s : SysState) (cfg : ConnectConfig) : SysState :=
  { s with nextId := s.nextId + 1,
           loops := upd s.loops s.nextId (some ⟨cfg, .startIter⟩),
           handle := some s.nextId }

/-- `handle_websocket_message` (src/chat.rs:168-197) as performed by the
running `connect` task of generation `g` on decoded frame text `m`. -/
def sessHandleFrame (s : SysState) (g : Nat) (ss : SessState) (m : RStr) : SysState :=
  if containsSub ("ACK :twitch.tv/tags".data) m then
    { s with sessions := upd s.sessions g (some { ss with tagsAllowed := true }) }
  else if ss.tagsAllowed && containsSub ("PRIVMSG".data) m then
    match format_user_message_with_tags m with
    | .panicked => { s with sessions := upd s.sessions g none }
    | .ok (some msg) => { s with inQs := upd s.inQs g (s.inQs g ++ [msg]) }
    | .ok none => s
  else if containsSub ("PRIVMSG".data) m then
    match format_user_message m with
    | .panicked => { s with sessions := upd s.sessions g none }
    | .ok (some msg) => { s with inQs := upd s.inQs g (s.inQs g ++ [msg]) }
    | .ok none => s
  else s

/-- One scheduler step. -/
def step (s : SysState) : Ev → SysState
  | .ctrlJoin cfg =>
    -- Controller::join: abort the recorded handle (if any), then supervise.
    match s.handle with
    | none => superviseSpawn s cfg
    | some l => superviseSpawn (abortLoopTask s l) cfg
  | .ctrlLeave =>
    -- Controller::leave: abort and clear the recorded handle, nothing else.
    match s.handle with
    | none => s
    | some l => { abortLoopTask s l with handle := none }
  | .ctrlSend m =>
    -- Controller::send: lock the slot; if a sender is present, enqueue into
    -- its channel; a send error (receiver task gone) is discarded.
    if s.mutexFree then
      match s.slot with
      | none => s
      | some g =>
        match s.sessions g with
        | some _ => { s with outQs := upd s.outQs g (s.outQs g ++ [m]) }
        | none => s
    else s
  | .loopRun l =>
    match s.loops l with
    | none => s
    | some ls =>
      match ls.phase with
      | .startIter =>
        -- One supervise-loop iteration head: acquire the mutex, create the
        -- two channel pairs, install the new sender in the slot, spawn the
        -- proxy task and the connect task, then await the connect task.
        if s.mutexFree then
          { s with nextId := s.nextId + 2,
                   mutexFree := false,
                   slot := some s.nextId,
                   sessions := upd s.sessions s.nextId
                     (some ⟨ls.cfg, .handshake, false, []⟩),
                   proxies := upd s.proxies (s.nextId + 1) (some s.nextId),
                   inQs := upd s.inQs s.nextId [],
                   outQs := upd s.outQs s.nextId [],
                   socks := upd s.socks s.nextId [],
                   loops := upd s.loops l (some ⟨ls.cfg, .waitSession s.nextId (s.nextId + 1)⟩) }
        else s
      | .waitSession g p =>
        -- The awaited connect task finished (returned or panicked): abort
        -- the proxy, drop the mutex guard, and loop back to a new iteration.
        if (s.sessions g).isNone then
          { s with proxies := upd s.proxies p none,
                   mutexFree := true,
                   loops := upd s.loops l (some ⟨ls.cfg, .startIter⟩) }
        else s
  | .sessRun g =>
    -- First poll of a connect task: `channel.unwrap()` (panic when absent),
    -- websocket open, then the four handshake lines in order.
    match s.sessions g with
    | some ss =>
      match ss.phase with
      | .handshake =>
        match ss.cfg.channel with
        | none => { s with sessions := upd s.sessions g none }
        | some ch =>
          { s with sessions := upd s.sessions g (some { ss with phase := .running }),
                   socks := upd s.socks g (s.socks g ++
                     [passLine ss.cfg.oauth, nickLine ss.cfg.nick, joinLine ch, capLine]) }
      | .running => s
    | none => s
  | .sessOut g =>
    -- Service-loop branch `msg = outgoing_message_rx.recv()` with a line
    -- available: dedup workaround, record last_sent_message, transmit.
    match s.sessions g with
    | some ss =>
      match ss.phase, ss.cfg.channel, s.outQs g with
      | .running, some ch, m :: rest =>
        match dedupStep ss.lastSent m with
        | none =>
          { s with sessions := upd s.sessions g none,
                   outQs := upd s.outQs g rest }
        | some m2 =>
          { s with sessions := upd s.sessions g (some { ss with lastSent := m2 }),
                   outQs := upd s.outQs g rest,
                   socks := upd s.socks g (s.socks g ++ [privmsgLine ch m2]) }
      | _, _, _ => s
    | none => s
  | .sessIn g frame =>
    -- Service-loop branch `res = conn.receive_frame()` with a good frame.
    match s.sessions g with
    | some ss =>
      match ss.phase with
      | .running => sessHandleFrame s g ss frame
      | .handshake => s
    | none => s
  | .sessFail g =>
    -- `receive_frame` error (connection lost): print, break, connect returns
    -- and the task ends.  A handshake `unwrap` failure likewise ends the task.
    match s.sessions g with
    | some _ => { s with sessions := upd s.sessions g none }
    | none => s
  | .proxyRun p =>
    -- One iteration of `spawn_proxy_worker`'s loop: forward one buffered
    -- message from its generation's incoming channel to the durable channel.
    match s.proxies p with
    | none => s
    | some g =>
      match s.inQs g with
      | [] => s
      | m :: rest => { s with inQs := upd s.inQs g rest, durable := s.durable ++ [m] }

/-- Run a schedule of events. -/
def run (s : SysState) (evs : List Ev) : SysState := evs.foldl step s

/-- State after `Controller::new()` plus `take_receiver()`: empty slot, no
handle, no tasks, empty durable channel. -/
def initState : SysState :=
  ⟨0, true, none, none, fun _ => none, fun _ => none, fun _ => none,
   fun _ => [], fun _ => [], fun _ => [], []⟩

/-- Config for joining channel `"a"` with no token and no nickname. -/
def cfgA : ConnectConfig := ⟨some "a".data, none, none⟩

/-- Config for joining channel `"b"`. -/
def cfgB : ConnectConfig := ⟨some "b".data, none, none⟩

/-- Config for joining channel `"c"`. -/
def cfgC : ConnectConfig := ⟨some "c".data, none, none⟩

/-- Schedule: `join("a")`, the session comes up, the connection is lost, and
the supervise loop runs twice more — with no further `join`. -/
def traceLost : List Ev :=
  [.ctrlJoin cfgA, .loopRun 0, .sessRun 1, .sessFail 1, .loopRun 0, .loopRun 0, .sessRun 3]

/-- Schedule: `join("a")`, session 1 comes up, then `join("b")` supersedes
it, session 4 comes up, and session 1 receives one more chat frame which its
proxy forwards. -/
def traceRejoin : List Ev :=
  [.ctrlJoin cfgA, .loopRun 0, .sessRun 1, .ctrlJoin cfgB, .loopRun 3, .sessRun 4,
   .sessIn 1 (":old!o@o PRIVMSG #a :hey\r\n".data), .proxyRun 2]

/-- Schedule: `join("a")`, session 1 comes up, `leave()`, then `send("hi")`
and one service-loop step of session 1. -/
def traceLeaveSend : List Ev :=
  [.ctrlJoin cfgA, .loopRun 0, .sessRun 1, .ctrlLeave, .ctrlSend "hi".data, .sessOut 1]

/-- Schedule: `join("c")`, session 1 comes up, `leave()`, then `send("yo")`
and one service-loop step of session 1. -/
def traceLeaveSendC : List Ev :=
  [.ctrlJoin cfgC, .loopRun 0, .sessRun 1, .ctrlLeave, .ctrlSend "yo".data, .sessOut 1]

/-- `Chat::receive` (src/chat.rs:47-56) over a sequence of outcomes of
`self.output.recv()`: loop past `None` results, return the first actual
message; `none` here means the whole (finite) outcome sequence was `None`s
and the loop is still waiting. -/
def receiveLoop : List (Option ChatMessage) → Option ChatMessage
  | [] => none
  | some m :: _ => some m
  | none :: rest => receiveLoop rest

lemma leadsWith_nil (s : RStr) : leadsWith [] s = true := by
  cases s <;> rfl

lemma splitOnce_cons_self (c : Char) (r : RStr) : splitOnceStr [c] (c :: r) = some ([], r) := by
  simp [splitOnceStr, leadsWith, leadsWith_nil]

lemma splitOnce_char_append (c : Char) (a b : RStr) (h : c ∉ a) :
    splitOnceStr [c] (a ++ c :: b) = some (a, b) := by
  induction a with
  | nil => simpa using splitOnce_cons_self c b
  | cons x xs ih =>
    have hx : ¬(c = x) := fun e => h (e ▸ List.mem_cons_self x xs)
    have hxs : c ∉ xs := fun e => h (List.mem_cons_of_mem x e)
    simp [splitOnceStr, leadsWith, hx, ih hxs]

lemma splitOnce_char_none (c : Char) (a : RStr) (h : c ∉ a) :
    splitOnceStr [c] a = none := by
  induction a with
  | nil => rfl
  | cons x xs ih =>
    have hx : ¬(c = x) := fun e => h (e ▸ List.mem_cons_self x xs)
    have hxs : c ∉ xs := fun e => h (List.mem_cons_of_mem x e)
    simp [splitOnceStr, leadsWith, hx, ih hxs]

lemma containsSub_or (sep : RStr) (c : Char) (rest : RStr) :
    containsSub sep (c :: rest) = (leadsWith sep (c :: rest) || containsSub sep rest) := rfl

lemma containsSub_pair_false_fst (c d : Char) (a : RStr) (h : c ∉ a) :
    containsSub [c, d] a = false := by
  induction a with
  | nil => rfl
  | cons x xs ih =>
    have hx : ¬(c = x) := fun e => h (e ▸ List.mem_cons_self x xs)
    have hxs : c ∉ xs := fun e => h (List.mem_cons_of_mem x e)
    simp [containsSub, leadsWith, hx, ih hxs]

lemma containsSub_pair_false_snd (c d : Char) (a : RStr) (h : d ∉ a) :
    containsSub [c, d] a = false := by
  induction a with
  | nil => rfl
  | cons x xs ih =>
    have hxs : d ∉ xs := fun e => h (List.mem_cons_of_mem x e)
    rw [containsSub_or, ih hxs, Bool.or_false]
    rw [leadsWith]
    cases hcx : (c == x) with
    | false => simp
    | true =>
      simp only [Bool.true_and]
      cases xs with
      | nil => rfl
      | cons y ys =>
        have hy : ¬(d = y) :=
          fun e => h (List.mem_cons_of_mem x (e ▸ List.mem_cons_self y ys))
        simp [leadsWith, hy]

lemma splitOnce_pair_append (c d : Char) (a b : RStr) (hcd : c ≠ d)
    (h : containsSub [c, d] a = false) :
    splitOnceStr [c, d] (a ++ c :: d :: b) = some (a, b) := by
  induction a with
  | nil => simp [splitOnceStr, leadsWith, leadsWith_nil]
  | cons x xs ih =>
    rw [containsSub_or] at h
    have h1 : leadsWith [c, d] (x :: xs) = false := by
      cases hl : leadsWith [c, d] (x :: xs) with
      | false => rfl
      | true => rw [hl] at h; simp at h
    have h2 : containsSub [c, d] xs = false := by
      cases hc2 : containsSub [c, d] xs with
      | false => rfl
      | true => rw [hc2] at h; simp at h
    have hlead : leadsWith [c, d] (x :: (xs ++ c :: d :: b)) = false := by
      rw [leadsWith] at h1 ⊢
      cases hcx : (c == x) with
      | false => simp [hcx]
      | true =>
        rw [hcx, Bool.true_and] at h1
        simp only [Bool.true_and]
        cases xs with
        | nil =>
          have : ¬(d = c) := fun e => hcd e.symm
          simp [leadsWith, this]
        | cons y ys =>
          simp only [List.cons_append, leadsWith, leadsWith_nil, Bool.and_true] at h1 ⊢
          exact h1
    rw [List.cons_append, splitOnceStr.eq_def]
    simp only [hlead, Bool.false_eq_true, if_false, ih h2]

lemma exists_splitOnce_of_containsSub (sep s : RStr) (h : containsSub sep s = true) :
    ∃ pr, splitOnceStr sep s = some pr := by
  induction s with
  | nil =>
    rw [containsSub] at h
    exact ⟨([], []), by simp [splitOnceStr, h]⟩
  | cons c rest ih =>
    rw [containsSub_or] at h
    cases hl : leadsWith sep (c :: rest) with
    | true => exact ⟨([], (c :: rest).drop sep.length), by simp [splitOnceStr, hl]⟩
    | false =>
      rw [hl, Bool.false_or] at h
      obtain ⟨⟨a2, b2⟩, e⟩ := ih h
      exact ⟨(c :: a2, b2), by simp [splitOnceStr, hl, e]⟩

lemma splitAll_not_found (c : Char) (a : RStr) (h : c ∉ a) : splitAll c a = [a] := by
  induction a with
  | nil => rfl
  | cons x xs ih =>
    have hx : ¬(x = c) := fun e => h (e ▸ List.mem_cons_self x xs)
    have hxs : c ∉ xs := fun e => h (List.mem_cons_of_mem x e)
    simp [splitAll, hx, ih hxs]

lemma splitAll_append (c : Char) (a b : RStr) (h : c ∉ a) :
    splitAll c (a ++ c :: b) = a :: splitAll c b := by
  induction a with
  | nil => simp [splitAll]
  | cons x xs ih =>
    have hx : ¬(x = c) := fun e => h (e.symm ▸ List.mem_cons_self x xs)
    have hxs : c ∉ xs := fun e => h (List.mem_cons_of_mem x e)
    rw [List.cons_append, splitAll.eq_def]
    simp only [hx, if_false, ih hxs]

lemma fum_shape (author mid txt : RStr)
    (h1 : '!' ∉ author) (h2 : ':' ∉ author) (h3 : '\r' ∉ author)
    (h4 : ':' ∉ mid) (h5 : '\r' ∉ mid) (h6 : '\r' ∉ txt) :
    format_user_message ((':' :: (author ++ ('!' :: (mid ++ (':' :: txt))))) ++ crlf)
      = RRes.ok (some ⟨author, none, txt⟩) := by
  have hr : '\r' ∉ ':' :: (author ++ ('!' :: (mid ++ (':' :: txt)))) := by
    simp only [List.mem_cons, List.mem_append]
    push_neg
    exact ⟨by decide, h3, by decide, h5, by decide, h6⟩
  have e1 : splitOnceStr crlf ((':' :: (author ++ ('!' :: (mid ++ (':' :: txt))))) ++ crlf)
      = some (':' :: (author ++ ('!' :: (mid ++ (':' :: txt)))), []) := by
    simp only [crlf]
    exact splitOnce_pair_append '\r' '\n' _ [] (by decide)
      (containsSub_pair_false_fst '\r' '\n' _ hr)
  have e2 : splitOnceStr ['!'] (':' :: (author ++ ('!' :: (mid ++ (':' :: txt)))))
      = some (':' :: author, mid ++ (':' :: txt)) := by
    have ha : (':' :: (author ++ ('!' :: (mid ++ (':' :: txt)))))
        = (':' :: author) ++ ('!' :: (mid ++ (':' :: txt))) := by simp
    rw [ha]
    refine splitOnce_char_append '!' _ _ ?_
    simp only [List.mem_cons]
    push_neg
    exact ⟨by decide, h1⟩
  have e3 : rustGet1 (':' :: author) = some author := by
    simp [rustGet1]
  have w2 : splitOnceStr [':'] (author ++ ('!' :: (mid ++ (':' :: txt))))
      = some (author ++ ('!' :: mid), txt) := by
    have ha : author ++ ('!' :: (mid ++ (':' :: txt)))
        = (author ++ ('!' :: mid)) ++ (':' :: txt) := by simp
    rw [ha]
    refine splitOnce_char_append ':' _ _ ?_
    simp only [List.mem_append, List.mem_cons]
    push_neg
    exact ⟨h2, by decide, h4⟩
  have e4 : splitnLast ':' 2 (':' :: (author ++ ('!' :: (mid ++ (':' :: txt))))) = txt := by
    simp only [splitnLast, splitOnce_cons_self, w2]
  simp only [format_user_message, e1, e2, e3, e4]

lemma fum_no_bang (body tl : RStr) (h1 : '\r' ∉ body) (h2 : '!' ∉ body) :
    format_user_message (body ++ crlf ++ tl) = RRes.ok none := by
  have ha : body ++ crlf ++ tl = body ++ ('\r' :: '\n' :: tl) := by simp [crlf]
  have e1 : splitOnceStr crlf (body ++ ('\r' :: '\n' :: tl)) = some (body, tl) := by
    simp only [crlf]
    exact splitOnce_pair_append '\r' '\n' body tl (by decide)
      (containsSub_pair_false_fst '\r' '\n' body h1)
  have e2 : splitOnceStr ['!'] body = none := splitOnce_char_none '!' body h2
  rw [ha]
  simp only [format_user_message, e1, e2]

lemma fumt_shape (tags ai txt : RStr)
    (h1 : containsSub spc tags = false) (h2 : '\r' ∉ tags)
    (h3 : ':' ∉ ai) (h4 : '\r' ∉ ai) (h5 : '\r' ∉ txt) :
    format_user_message_with_tags
        ((tags ++ (' ' :: ':' :: (ai ++ (' ' :: ':' :: txt)))) ++ crlf)
      = RRes.ok (match lookupLast (parse_tags tags) ("display-name".data) with
          | none => none
          | some author => some ⟨author, lookupLast (parse_tags tags) ("color".data), txt⟩) := by
  have hr : '\r' ∉ tags ++ (' ' :: ':' :: (ai ++ (' ' :: ':' :: txt))) := by
    simp only [List.mem_append, List.mem_cons]
    push_neg
    exact ⟨h2, by decide, by decide, h4, by decide, by decide, h5⟩
  have e1 : splitOnceStr crlf ((tags ++ (' ' :: ':' :: (ai ++ (' ' :: ':' :: txt)))) ++ crlf)
      = some (tags ++ (' ' :: ':' :: (ai ++ (' ' :: ':' :: txt))), []) := by
    simp only [crlf]
    exact splitOnce_pair_append '\r' '\n' _ [] (by decide)
      (containsSub_pair_false_fst '\r' '\n' _ hr)
  have e2 : splitOnceStr spc (tags ++ (' ' :: ':' :: (ai ++ (' ' :: ':' :: txt))))
      = some (tags, ai ++ (' ' :: ':' :: txt)) := by
    simp only [spc]
    exact splitOnce_pair_append ' ' ':' _ _ (by decide) h1
  have e3 : splitOnceStr spc (ai ++ (' ' :: ':' :: txt)) = some (ai, txt) := by
    simp only [spc]
    exact splitOnce_pair_append ' ' ':' _ _ (by decide)
      (containsSub_pair_false_snd ' ' ':' ai h3)
  simp only [format_user_message_with_tags, e1, e2, e3]
  cases lookupLast (parse_tags tags) ("display-name".data) <;> rfl

lemma filterMap_pair {α β : Type} (f : α → Option β) (a b : α) (x y : β)
    (ha : f a = some x) (hb : f b = some y) : List.filterMap f [a, b] = [x, y] := by
  simp [List.filterMap_cons, ha, hb]

lemma parse_tags_pair (name colorv : RStr) (hn : ';' ∉ name) (hc : ';' ∉ colorv) :
    parse_tags ("display-name=".data ++ (name ++ (';' :: ("color=".data ++ colorv))))
      = [("display-name".data, name), ("color".data, colorv)] := by
  have s1 : "display-name=".data ++ (name ++ (';' :: ("color=".data ++ colorv)))
      = ("display-name=".data ++ name) ++ (';' :: ("color=".data ++ colorv)) := by simp
  have hsemi : ';' ∉ "display-name=".data ++ name := by
    simp only [List.mem_append]
    push_neg
    exact ⟨by decide, hn⟩
  have hsemi2 : ';' ∉ "color=".data ++ colorv := by
    simp only [List.mem_append]
    push_neg
    exact ⟨by decide, hc⟩
  have e1 : splitOnceStr ['='] ("display-name=".data ++ name)
      = some ("display-name".data, name) := by
    have d1 : "display-name=".data ++ name = "display-name".data ++ ('=' :: name) := by
      have : "display-name=".data = "display-name".data ++ ('=' :: []) := by decide
      rw [this]
      simp
    rw [d1]
    exact splitOnce_char_append '=' _ _ (by decide)
  have e2 : splitOnceStr ['='] ("color=".data ++ colorv)
      = some ("color".data, colorv) := by
    have d2 : "color=".data ++ colorv = "color".data ++ ('=' :: colorv) := by
      have : "color=".data = "color".data ++ ('=' :: []) := by decide
      rw [this]
      simp
    rw [d2]
    exact splitOnce_char_append '=' _ _ (by decide)
  rw [parse_tags, s1, splitAll_append ';' _ _ hsemi, splitAll_not_found ';' _ hsemi2]
  exact filterMap_pair _ _ _ _ _ e1 e2

lemma lookupLast_pair_fst (k1 k2 : RStr) (v1 v2 : RStr) (hne : ¬(k2 = k1)) :
    lookupLast [(k1, v1), (k2, v2)] k1 = some v1 := by
  simp [lookupLast, hne]

lemma lookupLast_pair_snd (k1 k2 : RStr) (v1 v2 : RStr) :
    lookupLast [(k1, v1), (k2, v2)] k2 = some v2 := by
  simp [lookupLast]

lemma fumt_total (s : RStr) (h : containsSub crlf s = true) :
    ∃ r, format_user_message_with_tags s = RRes.ok r := by
  obtain ⟨⟨body, tl⟩, e⟩ := exists_splitOnce_of_containsSub crlf s h
  rcases h2 : splitOnceStr spc body with _ | ⟨tags, tail⟩
  · exact ⟨none, by simp only [format_user_message_with_tags, e, h2]⟩
  · rcases h3 : splitOnceStr spc tail with _ | ⟨ai, message⟩
    · exact ⟨none, by simp only [format_user_message_with_tags, e, h2, h3]⟩
    · rcases h4 : lookupLast (parse_tags tags) ("display-name".data) with _ | author
      · exact ⟨none, by simp only [format_user_message_with_tags, e, h2, h3, h4]⟩
      · exact ⟨some ⟨author, lookupLast (parse_tags tags) ("color".data), message⟩,
          by simp only [format_user_message_with_tags, e, h2, h3, h4]⟩

lemma fum_total (body tl : RStr) (h1 : containsSub crlf body = false)
    (hc : ∀ a r, splitOnceStr ['!'] body = some (a, r) → (rustGet1 a).isSome) :
    ∃ r, format_user_message (body ++ ('\r' :: '\n' :: tl)) = RRes.ok r := by
  have e1 : splitOnceStr crlf (body ++ ('\r' :: '\n' :: tl)) = some (body, tl) := by
    simp only [crlf]
    exact splitOnce_pair_append '\r' '\n' body tl (by decide) h1
  rcases e2 : splitOnceStr ['!'] body with _ | ⟨a, r⟩
  · exact ⟨none, by simp only [format_user_message, e1, e2]⟩
  · have hs := hc a r e2
    rcases e3 : rustGet1 a with _ | author
    · rw [e3] at hs
      simp at hs
    · exact ⟨some ⟨author, none, splitnLast ':' 2 body⟩,
        by simp only [format_user_message, e1, e2, e3]⟩

/-- Claim C2 counterexample: the parsers are not total.  On the well-formed
chat line `:nick!x@y PRIVMSG #c :hello` without a CRLF terminator,
`format_user_message` panics (the `split_once("\r\n").unwrap()` at
src/chat.rs:205 fails) instead of returning "no message". -/
theorem c2_counterexample :
    format_user_message (":nick!x@y PRIVMSG #c :hello".data) = RRes.panicked := by
  decide

/-- Claim C2 (amended): `parse_tagged` returns a result (message or
"no message") without panicking on every input that contains the CRLF
sequence; `parse_plain` does so on every input of the form
`body ++ "\r\n" ++ tail` (CRLF-free `body`) provided the segment of `body`
before its first `'!'`, when such a segment exists, is non-empty and starts
with a single-byte character (so that `author.get(1..).unwrap()` cannot
panic).  Inputs without CRLF make both parsers panic (see the
counterexample). -/
theorem c2_parse_totality_amended :
    (∀ s : RStr, containsSub crlf s = true →
      ∃ r, format_user_message_with_tags s = RRes.ok r)
    ∧ (∀ body tl : RStr, containsSub crlf body = false →
      (∀ a r, splitOnceStr ['!'] body = some (a, r) → (rustGet1 a).isSome) →
      ∃ r, format_user_message (body ++ ('\r' :: '\n' :: tl)) = RRes.ok r) :=
  ⟨fumt_total, fum_total⟩

/-- Witness for C2 (amended) at concrete inputs. -/
theorem c2_parse_totality_amended_witness :
    (∃ r, format_user_message_with_tags ("x\r\ny".data) = RRes.ok r)
    ∧ (∃ r, format_user_message (":n!x PRIVMSG #c :hi".data ++ ('\r' :: '\n' :: []))
        = RRes.ok r) := by
  refine ⟨c2_parse_totality_amended.1 _ (by decide),
          c2_parse_totality_amended.2 _ [] (by decide) ?_⟩
  intro a r hx
  rw [show splitOnceStr ['!'] (":n!x PRIVMSG #c :hi".data)
      = some (":n".data, "x PRIVMSG #c :hi".data) from by decide] at hx
  cases hx
  decide

/-- Claim C6: on every untagged line `:nick!x PRIVMSG #c :txt` (followed by
its CRLF terminator as received from the wire), `parse_plain` yields
author `nick`, text `txt` and no display color; and on every line lacking a
`'!'` it yields "no message". -/
theorem c6_parse_plain_shapes :
    (∀ nick x c txt : RStr,
      '!' ∉ nick → ':' ∉ nick → '\r' ∉ nick →
      ':' ∉ x → '\r' ∉ x → ':' ∉ c → '\r' ∉ c → '\r' ∉ txt →
      format_user_message
        ((':' :: nick) ++ ('!' :: x) ++ " PRIVMSG #".data ++ c ++ (' ' :: ':' :: txt) ++ crlf)
        = RRes.ok (some ⟨nick, none, txt⟩))
    ∧ (∀ body tl : RStr, '\r' ∉ body → '!' ∉ body →
      format_user_message (body ++ crlf ++ tl) = RRes.ok none) := by
  constructor
  · intro nick x c txt h1 h2 h3 h4 h5 h6 h7 h8
    have hmid4 : ':' ∉ x ++ (" PRIVMSG #".data ++ (c ++ [' '])) := by
      simp only [List.mem_append, List.mem_cons]
      push_neg
      exact ⟨h4, by decide, h6, by decide⟩
    have hmid5 : '\r' ∉ x ++ (" PRIVMSG #".data ++ (c ++ [' '])) := by
      simp only [List.mem_append, List.mem_cons]
      push_neg
      exact ⟨h5, by decide, h7, by decide⟩
    have key := fum_shape nick (x ++ (" PRIVMSG #".data ++ (c ++ [' ']))) txt
      h1 h2 h3 hmid4 hmid5 h8
    have harg : (':' :: nick) ++ ('!' :: x) ++ " PRIVMSG #".data ++ c ++
          (' ' :: ':' :: txt) ++ crlf
        = (':' :: (nick ++ ('!' :: ((x ++ (" PRIVMSG #".data ++ (c ++ [' ']))) ++
            (':' :: txt))))) ++ crlf := by
      simp
    rw [harg]
    exact key
  · intro body tl hb1 hb2
    exact fum_no_bang body tl hb1 hb2

/-- Witness for C6 at the spec's concrete inputs. -/
theorem c6_parse_plain_shapes_witness :
    format_user_message
        ((':' :: "nick".data) ++ ('!' :: "x@y".data) ++ " PRIVMSG #".data ++ "c".data ++
          (' ' :: ':' :: "hello".data) ++ crlf)
      = RRes.ok (some ⟨"nick".data, none, "hello".data⟩)
    ∧ format_user_message ("PING tmi".data ++ crlf ++ []) = RRes.ok none :=
  ⟨c6_parse_plain_shapes.1 "nick".data "x@y".data "c".data "hello".data
      (by decide) (by decide) (by decide) (by decide) (by decide) (by decide)
      (by decide) (by decide),
   c6_parse_plain_shapes.2 "PING tmi".data [] (by decide) (by decide)⟩

/-- Claim C7: on every tagged line
`display-name=<name>;color=<colorv> :<author-info> :<txt>` (with CRLF),
`parse_tagged` yields author `<name>`, display color `<colorv>` and text
`<txt>` (internal `':'` in `<txt>` preserved); and on every tagged line
whose tag set lacks `display-name` it yields "no message" regardless of the
other tags. -/
theorem c7_parse_tagged_shapes :
    (∀ name colorv ai txt : RStr,
      ';' ∉ name → ':' ∉ name → '\r' ∉ name →
      ';' ∉ colorv → ':' ∉ colorv → '\r' ∉ colorv →
      ':' ∉ ai → '\r' ∉ ai → '\r' ∉ txt →
      format_user_message_with_tags
        ("display-name=".data ++ name ++ (';' :: ("color=".data ++ colorv)) ++
          (' ' :: ':' :: ai) ++ (' ' :: ':' :: txt) ++ crlf)
        = RRes.ok (some ⟨name, some colorv, txt⟩))
    ∧ (∀ tags ai txt : RStr,
      containsSub spc tags = false → '\r' ∉ tags → ':' ∉ ai → '\r' ∉ ai → '\r' ∉ txt →
      lookupLast (parse_tags tags) ("display-name".data) = none →
      format_user_message_with_tags
        (tags ++ (' ' :: ':' :: ai) ++ (' ' :: ':' :: txt) ++ crlf)
        = RRes.ok none) := by
  constructor
  · intro name colorv ai txt h1 h2 h3 h4 h5 h6 h7 h8 h9
    have hT1 : containsSub spc
        ("display-name=".data ++ (name ++ (';' :: ("color=".data ++ colorv)))) = false := by
      refine containsSub_pair_false_snd ' ' ':' _ ?_
      simp only [List.mem_append, List.mem_cons]
      push_neg
      exact ⟨by decide, h2, by decide, by decide, h5⟩
    have hT2 : '\r' ∉
        "display-name=".data ++ (name ++ (';' :: ("color=".data ++ colorv))) := by
      simp only [List.mem_append, List.mem_cons]
      push_neg
      exact ⟨by decide, h3, by decide, by decide, h6⟩
    have key := fumt_shape
      ("display-name=".data ++ (name ++ (';' :: ("color=".data ++ colorv))))
      ai txt hT1 hT2 h7 h8 h9
    rw [parse_tags_pair name colorv h1 h4,
        lookupLast_pair_fst _ _ _ _ (by decide),
        lookupLast_pair_snd] at key
    have harg : "display-name=".data ++ name ++ (';' :: ("color=".data ++ colorv)) ++
          (' ' :: ':' :: ai) ++ (' ' :: ':' :: txt) ++ crlf
        = (("display-name=".data ++ (name ++ (';' :: ("color=".data ++ colorv)))) ++
            (' ' :: ':' :: (ai ++ (' ' :: ':' :: txt)))) ++ crlf := by
      simp
    rw [harg]
    exact key
  · intro tags ai txt hb1 hb2 hb3 hb4 hb5 hlook
    have key := fumt_shape tags ai txt hb1 hb2 hb3 hb4 hb5
    rw [hlook] at key
    have harg : tags ++ (' ' :: ':' :: ai) ++ (' ' :: ':' :: txt) ++ crlf
        = (tags ++ (' ' :: ':' :: (ai ++ (' ' :: ':' :: txt)))) ++ crlf := by
      simp
    rw [harg]
    exact key

/-- Witness for C7 at the spec's concrete inputs
(`display-name=Bob;color=#FF0000 :nick!x PRIVMSG #c :hi :there` and a
tagged line without `display-name`). -/
theorem c7_parse_tagged_shapes_witness :
    format_user_message_with_tags
        ("display-name=".data ++ "Bob".data ++ (';' :: ("color=".data ++ "#FF0000".data)) ++
          (' ' :: ':' :: "nick!x PRIVMSG #c".data) ++ (' ' :: ':' :: "hi :there".data) ++ crlf)
      = RRes.ok (some ⟨"Bob".data, some "#FF0000".data, "hi :there".data⟩)
    ∧ format_user_message_with_tags
        ("color=#FF0000".data ++ (' ' :: ':' :: "nick!x PRIVMSG #c".data) ++
          (' ' :: ':' :: "hi".data) ++ crlf)
      = RRes.ok none :=
  ⟨c7_parse_tagged_shapes.1 "Bob".data "#FF0000".data "nick!x PRIVMSG #c".data
      "hi :there".data (by decide) (by decide) (by decide) (by decide) (by decide)
      (by decide) (by decide) (by decide) (by decide),
   c7_parse_tagged_shapes.2 "color=#FF0000".data "nick!x PRIVMSG #c".data "hi".data
      (by decide) (by decide) (by decide) (by decide) (by decide) (by decide)⟩

/-- Claim C4 counterexample: for the non-empty text `t = " \u{E0000}"` (the
marker itself) the claimed behavior fails: submitted three times from a
fresh session, the transmitted contents are `[t, "", t]` — the second
payload is the empty string (the toggle strips the marker) rather than
`t ++ marker`, and the third payload still contains the marker. -/
theorem c4_counterexample :
    marker ≠ [] ∧
    dedupRun [] [marker, marker, marker] = some ([marker, [], marker], marker) ∧
    ([] : RStr) ≠ marker ++ marker ∧
    containsSub marker marker = true := by
  decide

/-- Claim C4 (amended): for every non-empty text `t` that does not contain
the invisible marker substring, submitting `t` three times in a row from a
fresh session transmits `t`, then `t ++ marker` (a distinct payload), then
`t` again (marker removed): the marker alternates across consecutive
identical submissions. -/
theorem c4_marker_alternation (t : RStr) (h1 : t ≠ [])
    (h2 : containsSub marker t = false) :
    dedupRun [] [t, t, t] = some ([t, t ++ marker, t], t) ∧ t ≠ t ++ marker := by
  have hne : ¬(([] : RStr) = t) := fun e => h1 e.symm
  have hmar : ¬(t ++ marker = t) := by
    intro e
    have hlen := congrArg List.length e
    simp [marker] at hlen
  refine ⟨?_, fun e => hmar e.symm⟩
  simp [dedupRun, dedupStep, h1, hne, hmar, h2]

/-- Witness for C4 (amended) at `t = "hi"`. -/
theorem c4_marker_alternation_witness :
    dedupRun [] ["hi".data, "hi".data, "hi".data]
      = some (["hi".data, "hi".data ++ marker, "hi".data], "hi".data)
    ∧ "hi".data ≠ "hi".data ++ marker :=
  c4_marker_alternation "hi".data (by decide) (by decide)

/-- Claim C5: after a non-empty `t` is submitted from a fresh session, the
recorded last-transmitted line is `t`, and submitting an empty line then
behaves exactly as submitting `t` itself would (the empty line is replaced
by the prior transmitted content, after which the de-duplication toggle
applies as to any other repeat): in general one dedup step on an empty line
equals the step on the last transmitted line. -/
theorem c5_empty_line_repeats (t : RStr) (h : t ≠ []) :
    dedupRun [] [t] = some ([t], t) ∧
    dedupRun [] [t, []] = dedupRun [] [t, t] ∧
    (∀ l : RStr, dedupStep l [] = dedupStep l l) := by
  have hne : ¬(([] : RStr) = t) := fun e => h e.symm
  have hstep : ∀ l : RStr, dedupStep l [] = dedupStep l l := by
    intro l
    by_cases hl : l = []
    · subst hl; rfl
    · simp [dedupStep, hl]
  have e0 : dedupStep [] t = some t := by simp [dedupStep, h, hne]
  refine ⟨by simp [dedupRun, e0], ?_, hstep⟩
  simp only [dedupRun, e0, hstep]

/-- Witness for C5 at `t = "yo"`. -/
theorem c5_empty_line_repeats_witness :
    dedupRun [] ["yo".data] = some (["yo".data], "yo".data) ∧
    dedupRun [] ["yo".data, []] = dedupRun [] ["yo".data, "yo".data] ∧
    (∀ l : RStr, dedupStep l [] = dedupStep l l) :=
  c5_empty_line_repeats "yo".data (by decide)

/-- Claim C9: `receive()` loops past any number of `None` outcomes of
`recv()` and returns the first actual `ChatMessage`; whenever it returns a
message, that message was actually available in the outcome sequence.  In
particular no "channel closed/empty" condition is ever returned to the
caller. -/
theorem c9_receive_loops_past_none :
    (∀ (n : Nat) (m : ChatMessage) (rest : List (Option ChatMessage)),
      receiveLoop (List.replicate n none ++ some m :: rest) = some m)
    ∧ (∀ (outs : List (Option ChatMessage)) (m : ChatMessage),
      receiveLoop outs = some m → some m ∈ outs) := by
  constructor
  · intro n m rest
    induction n with
    | zero => rfl
    | succ k ih => simpa [List.replicate_succ, receiveLoop] using ih
  · intro outs m
    induction outs with
    | nil => intro h; cases h
    | cons o rest ih =>
      cases o with
      | none =>
        intro h
        exact List.mem_cons_of_mem _ (ih h)
      | some x =>
        intro h
        simp only [receiveLoop, Option.some.injEq] at h
        subst h
        exact List.mem_cons_self _ _

/-- Witness for C9 at a concrete outcome sequence. -/
theorem c9_receive_loops_past_none_witness :
    receiveLoop (List.replicate 3 none ++ some ⟨"a".data, none, "b".data⟩ :: [])
      = some ⟨"a".data, none, "b".data⟩
    ∧ some (⟨"a".data, none, "b".data⟩ : ChatMessage)
        ∈ ([none, some ⟨"a".data, none, "b".data⟩] : List (Option ChatMessage)) :=
  ⟨c9_receive_loops_past_none.1 3 ⟨"a".data, none, "b".data⟩ [],
   c9_receive_loops_past_none.2 [none, some ⟨"a".data, none, "b".data⟩]
     ⟨"a".data, none, "b".data⟩ (by decide)⟩

/-- Claim C1 counterexample: `supervise`'s task body is an infinite `loop`
(src/chat_controller.rs:98-117).  In `traceLost` the host calls `join("a")`
once; after the connection is lost (`sessFail 1`) no further `join` occurs,
yet two more steps of the supervise loop create a brand-new session
(generation 3): its handshake lines are written to a fresh socket and its
sender is installed in the shared slot — a new connection attempt with no
explicit `join`. -/
theorem c1_counterexample :
    ((run initState traceLost).sessions 3).isSome = true
    ∧ (run initState traceLost).slot = some 3
    ∧ (run initState traceLost).socks 3
        = [passLine none, nickLine none, joinLine "a".data, capLine] := by
  decide

/-- Claim C1 (amended): the Supervisor automatically restarts a Session that
ends.  Whenever the supervise-loop task `l` is awaiting a session of
generation `g` that has ended (e.g. connection loss), two further steps of
that same loop task — with no `join` — start a fresh session with the same
config: a new generation `s.nextId` is spawned in handshake phase and its
sender is installed in the shared slot. -/
theorem c1_supervisor_auto_restarts (s : SysState) (l g p : Nat) (cfg : ConnectConfig)
    (hL : s.loops l = some ⟨cfg, .waitSession g p⟩)
    (hg : s.sessions g = none) :
    (step (step s (.loopRun l)) (.loopRun l)).sessions s.nextId
        = some ⟨cfg, .handshake, false, []⟩
    ∧ (step (step s (.loopRun l)) (.loopRun l)).slot = some s.nextId := by
  have e1 : step s (.loopRun l)
      = { s with proxies := upd s.proxies p none,
                 mutexFree := true,
                 loops := upd s.loops l (some ⟨cfg, .startIter⟩) } := by
    simp only [step, hL, hg, Option.isNone_none, if_true]
  rw [e1]
  simp [step, upd]

/-- Witness for C1 (amended) at the concrete state reached by
`join("a")`, session start, connection loss. -/
theorem c1_supervisor_auto_restarts_witness :
    (step (step (run initState [.ctrlJoin cfgA, .loopRun 0, .sessRun 1, .sessFail 1])
        (.loopRun 0)) (.loopRun 0)).sessions 3
      = some ⟨cfgA, .handshake, false, []⟩
    ∧ (step (step (run initState [.ctrlJoin cfgA, .loopRun 0, .sessRun 1, .sessFail 1])
        (.loopRun 0)) (.loopRun 0)).slot = some 3 :=
  c1_supervisor_auto_restarts
    (run initState [.ctrlJoin cfgA, .loopRun 0, .sessRun 1, .sessFail 1])
    0 1 2 cfgA (by decide) (by decide)

/-- Claim C3 (code bug exhibited): in `traceRejoin`, `join("b")` while the
session for `"a"` runs calls `handle.abort()`, but that aborts only the
outer supervise-loop task: the `connect` task was spawned with a nested
`tokio::spawn` (src/chat_controller.rs:111-115), so session 1 and its proxy
survive.  After the new session (generation 4, channel `"b"`) is
established, old session 1 still publishes an inbound message all the way
to the durable channel. -/
theorem c3_join_leaves_old_session_alive :
    ((run initState traceRejoin).sessions 1).isSome = true
    ∧ ((run initState traceRejoin).proxies 2).isSome = true
    ∧ (run initState traceRejoin).durable = [⟨"old".data, none, "hey".data⟩]
    ∧ ((run initState traceRejoin).sessions 4).isSome = true
    ∧ (run initState traceRejoin).socks 4
        = [passLine none, nickLine none, joinLine "b".data, capLine] := by
  decide

/-- Claim C8 (code bug exhibited): `send` with no sender installed is indeed
a silent no-op (first conjunct), but after `leave()` a `send("hi")` still
reaches a socket before any further `join`: `leave` aborts only the outer
supervise-loop task, the detached session 1 still consumes the old channel
and transmits `PRIVMSG #a :hi`. -/
theorem c8_send_after_leave_reaches_socket :
    run initState [.ctrlSend "x".data] = initState
    ∧ (run initState traceLeaveSend).handle = none
    ∧ (run initState traceLeaveSend).socks 1
        = [passLine none, nickLine none, joinLine "a".data, capLine,
           privmsgLine "a".data "hi".data] :=
  ⟨rfl, by decide, by decide⟩

/-- Claim C10 counterexample: in `traceLeaveSendC` (`join("c")`, session up,
`leave()`, `send("yo")`, one session step) the slot is indeed left holding
the old sender (generation 1), but the claimed "channel whose consumer is
gone, with the send error silently discarded" is false: the enqueued line is
consumed (the queue drains) and transmitted on the old session's socket. -/
theorem c10_counterexample :
    (run initState traceLeaveSendC).slot = some 1
    ∧ (run initState traceLeaveSendC).outQs 1 = []
    ∧ (run initState traceLeaveSendC).socks 1
        = [passLine none, nickLine none, joinLine "c".data, capLine,
           privmsgLine "c".data "yo".data] := by
  decide

/-- Claim C10 (amended): `leave()` modifies only the Supervisor's task
handle (aborting the supervise-loop task): the shared slot, the sessions,
proxies, channel buffers, sockets and the durable channel are all left
unchanged, and the handle is cleared.  A subsequent `send(t)` then finds the
cancelled generation's sender still in the slot and enqueues `t` into that
channel — whose consumer, the detached session task, is still alive (the
nested session task is not cancelled by the abort) — until the next `join`
replaces the slot. -/
theorem c10_leave_frame_effect (s : SysState) (l g p : Nat) (cfg : ConnectConfig) (t : RStr)
    (hH : s.handle = some l)
    (hL : s.loops l = some ⟨cfg, .waitSession g p⟩)
    (hS : s.slot = some g)
    (hA : (s.sessions g).isSome = true) :
    (step s .ctrlLeave).slot = s.slot
    ∧ (step s .ctrlLeave).sessions = s.sessions
    ∧ (step s .ctrlLeave).proxies = s.proxies
    ∧ (step s .ctrlLeave).outQs = s.outQs
    ∧ (step s .ctrlLeave).inQs = s.inQs
    ∧ (step s .ctrlLeave).socks = s.socks
    ∧ (step s .ctrlLeave).durable = s.durable
    ∧ (step s .ctrlLeave).handle = none
    ∧ (step (step s .ctrlLeave) (.ctrlSend t)).outQs g = s.outQs g ++ [t]
    ∧ (step (step s .ctrlLeave) (.ctrlSend t)).sessions g = s.sessions g := by
  obtain ⟨ss, hss⟩ := Option.isSome_iff_exists.mp hA
  have e1 : step s .ctrlLeave
      = { s with loops := upd s.loops l none, mutexFree := true, handle := none } := by
    simp only [step, abortLoopTask, hH, hL]
  rw [e1]
  refine ⟨rfl, rfl, rfl, rfl, rfl, rfl, rfl, rfl, ?_, ?_⟩ <;>
    simp [step, hS, hss, upd]

/-- Witness for C10 (amended) at the concrete state reached by `join("c")`
and session start. -/
theorem c10_leave_frame_effect_witness :
    (step (run initState [.ctrlJoin cfgC, .loopRun 0, .sessRun 1]) .ctrlLeave).slot
        = (run initState [.ctrlJoin cfgC, .loopRun 0, .sessRun 1]).slot
    ∧ (step (run initState [.ctrlJoin cfgC, .loopRun 0, .sessRun 1]) .ctrlLeave).sessions
        = (run initState [.ctrlJoin cfgC, .loopRun 0, .sessRun 1]).sessions
    ∧ (step (run initState [.ctrlJoin cfgC, .loopRun 0, .sessRun 1]) .ctrlLeave).proxies
        = (run initState [.ctrlJoin cfgC, .loopRun 0, .sessRun 1]).proxies
    ∧ (step (run initState [.ctrlJoin cfgC, .loopRun 0, .sessRun 1]) .ctrlLeave).outQs
        = (run initState [.ctrlJoin cfgC, .loopRun 0, .sessRun 1]).outQs
    ∧ (step (run initState [.ctrlJoin cfgC, .loopRun 0, .sessRun 1]) .ctrlLeave).inQs
        = (run initState [.ctrlJoin cfgC, .loopRun 0, .sessRun 1]).inQs
    ∧ (step (run initState [.ctrlJoin cfgC, .loopRun 0, .sessRun 1]) .ctrlLeave).socks
        = (run initState [.ctrlJoin cfgC, .loopRun 0, .sessRun 1]).socks
    ∧ (step (run initState [.ctrlJoin cfgC, .loopRun 0, .sessRun 1]) .ctrlLeave).durable
        = (run initState [.ctrlJoin cfgC, .loopRun 0, .sessRun 1]).durable
    ∧ (step (run initState [.ctrlJoin cfgC, .loopRun 0, .sessRun 1]) .ctrlLeave).handle
        = none
    ∧ (step (step (run initState [.ctrlJoin cfgC, .loopRun 0, .sessRun 1]) .ctrlLeave)
        (.ctrlSend "yo".data)).outQs 1
        = (run initState [.ctrlJoin cfgC, .loopRun 0, .sessRun 1]).outQs 1 ++ ["yo".data]
    ∧ (step (step (run initState [.ctrlJoin cfgC, .loopRun 0, .sessRun 1]) .ctrlLeave)
        (.ctrlSend "yo".data)).sessions 1
        = (run initState [.ctrlJoin cfgC, .loopRun 0, .sessRun 1]).sessions 1 :=
  c10_leave_frame_effect (run initState [.ctrlJoin cfgC, .loopRun 0, .sessRun 1])
    0 1 2 cfgC "yo".data (by decide) (by decide) (by decide) (by decide)

end Ttvy
